import Mathlib

/-!
Shallow embedding of the signal-engine core of the trading-bot repository:
the RSI+ADX strategy (`src/strategies/rsi_strategy.py`) and the
mean-reversion strategy (`src/strategies/mean_reversion_strategy.py`).

Modelling conventions:
* Python floats are modelled as exact rationals (`Rat`); the float literal
  `1e-10` is modelled as `1/10^10` and `0.1` as `1/10`, etc.
* Python `x ** 0.5` (square root) has no exact rational counterpart, so the
  mean-reversion engine is parametrised by a function `sqrtFn : Rat → Rat`
  standing for the square-root operation; every statement proved about that
  engine holds for an arbitrary `sqrtFn`.
* A fallible collaborator (the kline fetcher, the volatility analyzer) is
  modelled by an `Except String` value handed to the engine; a Python
  `raise`/exception corresponds to `Except.error`, and the `try/except`
  blocks of the strategies are modelled by explicit matches on it.
* Signals are the literal Python strings "buy", "sell", "hold".
-/

/-- One OHLC candle as consumed by the strategies.  The Python dicts carry
further fields (timestamp, open, volume) that the strategy code never
reads, so they are omitted here. -/
structure Kline where
  high : Rat
  low : Rat
  close : Rat
deriving Repr, DecidableEq

/-- Arithmetic mean of a list, `np.mean` / `sum(...)/len(...)`.  In `Rat`,
division by zero yields `0`; the Python code never takes the mean of an
empty list on the paths reachable under the hypotheses used below. -/
def listMean (l : List Rat) : Rat :=
  l.sum / (l.length : Rat)

/-- Successive differences, `np.diff`: element `i` is `l[i+1] - l[i]`. -/
def npDiff (l : List Rat) : List Rat :=
  l.zipWith (fun a b => b - a) l.tail

/-- The gain component of a delta: `np.where(deltas > 0, deltas, 0)`. -/
def gainPart (d : Rat) : Rat := if 0 < d then d else 0

/-- The loss component of a delta: `np.where(deltas < 0, -deltas, 0)`. -/
def lossPart (d : Rat) : Rat := if d < 0 then -d else 0

/-- `np.clip(x, lo, hi)`: `min(max(x, lo), hi)`, written here in the
equivalent `max lo (min hi x)` form for `lo ≤ hi`. -/
def npClip (x lo hi : Rat) : Rat := max lo (min hi x)

/-- Python `list[-n:]` for `n ≥ 1`: the last `n` elements (the whole list
when `n` exceeds the length). -/
def lastSlice (l : List Rat) (n : Nat) : List Rat :=
  l.drop (l.length - n)

/-- Python `int(q)` on a float: truncation toward zero. -/
def pyTrunc (q : Rat) : Int :=
  if 0 ≤ q then ⌊q⌋ else ⌈q⌉

/-- The close of the final kline, `klines[-1]['close']`; the strategies only
evaluate it on nonempty kline lists. -/
def lastClose (klines : List Kline) : Rat :=
  (klines.getLast?.getD ⟨0, 0, 0⟩).close

namespace RSIStrategy

/-- `self.base_period = 14`. -/
def base_period : Nat := 14

/-- `self.min_order_size = 0.001`. -/
def min_order_size : Rat := 1/1000

/-- One iteration of the RSI Wilder-smoothing loop over `(gain, loss)`
pairs; the state is `(avg_gain, avg_loss, rsi)`. -/
def rsiStep (period : Nat) (s : Rat × Rat × Rat) (gl : Rat × Rat) : Rat × Rat × Rat :=
  let ag := (s.1 * ((period : Rat) - 1) + gl.1) / (period : Rat)
  let al := (s.2.1 * ((period : Rat) - 1) + gl.2) / (period : Rat)
  (ag, al, if al = 0 then (if 0 < ag then 100 else 50) else 100 - 100 / (1 + ag / al))

/-- `RSIStrategy.calculate_rsi`.  Returns `50.0` for windows shorter than
`period + 1`; otherwise seeds `avg_gain`/`avg_loss` from the first `period`
deltas, early-returns on the zero-loss edge case, and otherwise runs the
Wilder recurrence over the remaining deltas, returning the last RSI. -/
def calculate_rsi (closes : List Rat) (period : Nat) : Rat :=
  if closes.length < period + 1 then 50
  else
    let deltas := npDiff closes
    let gains := deltas.map gainPart
    let losses := deltas.map lossPart
    let avg_gain := listMean (gains.take period)
    let avg_loss := listMean (losses.take period)
    if avg_loss = 0 then (if 0 < avg_gain then 100 else 50)
    else
      let rsi := 100 - 100 / (1 + avg_gain / avg_loss)
      (((gains.drop period).zip (losses.drop period)).foldl (rsiStep period)
        (avg_gain, avg_loss, rsi)).2.2

/-- The per-pair `(TR, plusDM, minusDM)` triple computed in the first loop of
`calculate_adx`: the argument pair is `(previous, current)` kline. -/
def trDm (p k : Kline) : Rat × Rat × Rat :=
  let tr := max (k.high - k.low) (max |k.high - p.close| |k.low - p.close|)
  let up_move := k.high - p.high
  let down_move := p.low - k.low
  let plus := if down_move < up_move ∧ 0 < up_move then up_move else 0
  let minus := if up_move < down_move ∧ 0 < down_move then down_move else 0
  (tr, plus, minus)

/-- The `(TR, plusDM, minusDM)` triples for all consecutive kline pairs. -/
def trDmList (klines : List Kline) : List (Rat × Rat × Rat) :=
  (klines.zip klines.tail).map (fun pk => trDm pk.1 pk.2)

/-- The running state of the ADX recurrence loop: the smoothed/maxed ATR, the
two (atr-scaled, clipped) directional indices carried between iterations,
and the accumulated `dx` history. -/
structure AdxState where
  atr : Rat
  plus_di : Rat
  minus_di : Rat
  dxs : List Rat
deriving Repr, DecidableEq

/-- One iteration of the ADX loop body (`for i in range(period, len(tr_values))`),
with `x = (tr, plusDM, minusDM)` at index `i`. -/
def adxStep (period : Nat) (s : AdxState) (x : Rat × Rat × Rat) : AdxState :=
  let atr1 := max ((s.atr * ((period : Rat) - 1) + x.1) / (period : Rat)) (1/10^10)
  let plus1 := (s.plus_di * ((period : Rat) - 1) + x.2.1) / (period : Rat)
  let minus1 := (s.minus_di * ((period : Rat) - 1) + x.2.2) / (period : Rat)
  let plus2 := npClip (100 * plus1 / atr1) (-100000) 100000
  let minus2 := npClip (100 * minus1 / atr1) (-100000) 100000
  let dx := if plus2 + minus2 = 0 then 0
            else 100 * |plus2 - minus2| / (plus2 + minus2)
  ⟨atr1, plus2, minus2, s.dxs ++ [dx]⟩

/-- `RSIStrategy.calculate_adx`.  Seeds ATR (floored at `1e-10`) and the
directional indices from the first `period` TR/DM values, runs `adxStep`
over the rest, and returns the mean of the last `period` `dx` values.
The Python `np.isnan` normalisation at the end has no rational counterpart
(the exact-arithmetic model produces no NaN); on the reachable paths the
Python value is likewise never NaN. -/
def calculate_adx (klines : List Kline) (period : Nat) : Rat :=
  if klines.length < period + 1 then 0
  else
    let t := trDmList klines
    let tr_values := t.map (fun x => x.1)
    let plus_dm := t.map (fun x => x.2.1)
    let minus_dm := t.map (fun x => x.2.2)
    if tr_values.length < period then 0
    else
      let atr := max (listMean (tr_values.take period)) (1/10^10)
      let plus_di := npClip (100 * listMean (plus_dm.take period) / atr) (-100000) 100000
      let minus_di := npClip (100 * listMean (minus_dm.take period) / atr) (-100000) 100000
      let dx := if plus_di + minus_di = 0 then 0
                else 100 * |plus_di - minus_di| / (plus_di + minus_di)
      let final := (t.drop period).foldl (adxStep period) ⟨atr, plus_di, minus_di, [dx]⟩
      listMean (lastSlice final.dxs period)

/-- The adaptive RSI period of `generate_signal`:
`period = int(self.base_period * (1 - volatility)); period = max(5, min(20, period))`.
Python `int(...)` truncates toward zero (`pyTrunc`); the clamp into `[5, 20]`
makes the result a positive integer, returned as a `Nat`. -/
def adaptivePeriod (v : Rat) : Nat :=
  (max 5 (min 20 (pyTrunc ((base_period : Rat) * (1 - v))))).toNat

/-- `overbought_threshold = max(50, min(80, 70 - volatility * 10))`. -/
def overboughtThreshold (v : Rat) : Rat := max 50 (min 80 (70 - v * 10))

/-- `oversold_threshold = max(20, min(50, 30 + volatility * 10))`. -/
def oversoldThreshold (v : Rat) : Rat := max 20 (min 50 (30 + v * 10))

/-- `adx_threshold = max(10, min(30, 15 + volatility * 10))`. -/
def adxThreshold (v : Rat) : Rat := max 10 (min 30 (15 + v * 10))

/-- The order quantity of the minimum-order veto:
`quantity = 0.1 / closes[-1]`. -/
def orderQuantity (c : Rat) : Rat := (1/10) / c

/-- The body of the `try` block of `RSIStrategy.generate_signal`, given the
successfully fetched klines.  When `volatility` is `None`, Python reaches
`70 - (volatility * 10)` and raises a `TypeError`, modelled by
`Except.error`; the adaptive period, `rsi` and `adx` are computed before
that point, exactly as in the source order. -/
def rsiSignalBody (klines : List Kline) (volatility : Option Rat) : Except String String :=
  if klines.isEmpty then Except.ok "hold"
  else
    let closes := klines.map Kline.close
    if closes.length < base_period + 1 then Except.ok "hold"
    else
      let period := match volatility with
        | some v => adaptivePeriod v
        | none => base_period
      let rsi := calculate_rsi closes period
      let adx := calculate_adx klines 14
      match volatility with
      | none => Except.error "TypeError: unsupported operand types for volatility None"
      | some v =>
        let signal := if rsi > overboughtThreshold v ∧ adx > adxThreshold v then "sell"
                      else if rsi < oversoldThreshold v ∧ adx > adxThreshold v then "buy"
                      else "hold"
        if signal ≠ "hold" then
          if orderQuantity (lastClose klines) < min_order_size then Except.ok "hold"
          else Except.ok signal
        else Except.ok signal

/-- `RSIStrategy.generate_signal`: the kline fetch may itself raise
(`Except.error`), and the whole body sits in a `try/except` whose handler
logs and returns `'hold'` — so every exception, from the fetch or from the
body, becomes the returned string `"hold"`. -/
def generate_signal (klinesRes : Except String (List Kline))
    (volatility : Option Rat) : String :=
  match klinesRes with
  | Except.error _ => "hold"
  | Except.ok klines =>
    match rsiSignalBody klines volatility with
    | Except.ok s => s
    | Except.error _ => "hold"

end RSIStrategy

namespace MeanReversionStrategy

/-- `self.lookback_period = 20`. -/
def lookback_period : Nat := 20

/-- `MeanReversionStrategy.generate_signal`.  `sqrtFn` models the Python
`** 0.5`; `klinesRes` and `volRes` model the fallible kline fetch and
volatility analysis.  The `except` handler of the source logs the error and
then re-raises (`raise`), so an `Except.error` from either collaborator
propagates unchanged to the caller. -/
def generate_signal (sqrtFn : Rat → Rat) (klinesRes : Except String (List Kline))
    (volRes : Except String Rat) : Except String String :=
  match klinesRes with
  | Except.error e => Except.error e
  | Except.ok klines =>
    if klines.length < lookback_period then Except.ok "hold"
    else
      let closes := (klines.drop (klines.length - lookback_period)).map Kline.close
      let mean := closes.sum / (closes.length : Rat)
      let std := sqrtFn ((closes.map (fun x => (x - mean)^2)).sum / (closes.length : Rat))
      match volRes with
      | Except.error e => Except.error e
      | Except.ok symbol_volatility =>
        let threshold := 2 * (1 + symbol_volatility)
        let upper_bound := mean + threshold * std
        let lower_bound := mean - threshold * std
        let price := lastClose klines
        if price > upper_bound then Except.ok "sell"
        else if price < lower_bound then Except.ok "buy"
        else Except.ok "hold"

end MeanReversionStrategy

namespace SpecModel

/-!
Definitions in this namespace follow the WORDING of the specification and of
the claims, to be compared against the source-derived definitions above.
-/

/-- Rounding to the nearest integer (half rounds up), as in the claimed
`round(basePeriod * (1 - volatility))`. -/
def roundNearest (q : Rat) : Int := (q + 1/2).floor

/-- The adaptive period as the claim states it:
`clamp(round(14 * (1 - v)), 5, 20)` with round-to-nearest. -/
def adaptivePeriodRound (v : Rat) : Int :=
  max 5 (min 20 (roundNearest ((14 : Rat) * (1 - v))))

/-- ADX recurrence state as the claim describes it: the value carried
between iterations for the plus/minus smoothing is a running smoothed DM
accumulator (not the atr-scaled directional index). -/
structure AdxDmState where
  atr : Rat
  sdmPlus : Rat
  sdmMinus : Rat
  dxs : List Rat
deriving Repr, DecidableEq

/-- One recurrence step as the claim describes it: Wilder-smooth the DM
accumulator first, then divide by the refreshed atr (times 100) and clip to
obtain the directional indices used for `dx`; carry the smoothed DM
accumulator, not the scaled index. -/
def adxDmStep (period : Nat) (s : AdxDmState) (x : Rat × Rat × Rat) : AdxDmState :=
  let atr1 := max ((s.atr * ((period : Rat) - 1) + x.1) / (period : Rat)) (1/10^10)
  let sp := (s.sdmPlus * ((period : Rat) - 1) + x.2.1) / (period : Rat)
  let sm := (s.sdmMinus * ((period : Rat) - 1) + x.2.2) / (period : Rat)
  let plus_di := npClip (100 * sp / atr1) (-100000) 100000
  let minus_di := npClip (100 * sm / atr1) (-100000) 100000
  let dx := if plus_di + minus_di = 0 then 0
            else 100 * |plus_di - minus_di| / (plus_di + minus_di)
  ⟨atr1, sp, sm, s.dxs ++ [dx]⟩

/-- The ADX computation as the claim reads it: identical seeding and final
averaging, but the loop carries the smoothed DM accumulators. -/
def adxSmoothedDM (klines : List Kline) (period : Nat) : Rat :=
  if klines.length < period + 1 then 0
  else
    let t := RSIStrategy.trDmList klines
    let tr_values := t.map (fun x => x.1)
    let plus_dm := t.map (fun x => x.2.1)
    let minus_dm := t.map (fun x => x.2.2)
    if tr_values.length < period then 0
    else
      let atr := max (listMean (tr_values.take period)) (1/10^10)
      let sp := listMean (plus_dm.take period)
      let sm := listMean (minus_dm.take period)
      let plus_di := npClip (100 * sp / atr) (-100000) 100000
      let minus_di := npClip (100 * sm / atr) (-100000) 100000
      let dx := if plus_di + minus_di = 0 then 0
                else 100 * |plus_di - minus_di| / (plus_di + minus_di)
      let final := (t.drop period).foldl (adxDmStep period) ⟨atr, sp, sm, [dx]⟩
      listMean (lastSlice final.dxs period)

/-- The RSI+ADX decision as claim C5 states it: `sell` when
`rsi > overboughtThreshold` and `adx > adxThreshold`, `buy` when
`rsi < oversoldThreshold` and `adx > adxThreshold`, otherwise `hold`, with a
non-hold decision downgraded to `hold` exactly when the order quantity is
below the minimum order size. -/
def rsiDecision (klines : List Kline) (v : Rat) : String :=
  let rsi := RSIStrategy.calculate_rsi (klines.map Kline.close) (RSIStrategy.adaptivePeriod v)
  let adx := RSIStrategy.calculate_adx klines 14
  let raw := if rsi > RSIStrategy.overboughtThreshold v ∧ adx > RSIStrategy.adxThreshold v
             then "sell"
             else if rsi < RSIStrategy.oversoldThreshold v ∧ adx > RSIStrategy.adxThreshold v
             then "buy"
             else "hold"
  if raw ≠ "hold" ∧ RSIStrategy.orderQuantity (lastClose klines) < RSIStrategy.min_order_size
  then "hold"
  else raw

/-- The mean-reversion decision as claim C6 states it: mean and population
standard deviation (divide by N = 20) over the last 20 closes, unclamped
threshold `2 * (1 + volatility)`, bounds `mean ± threshold * std`, and the
sell/buy/hold comparison on the latest close. -/
def meanRevDecision (sqrtFn : Rat → Rat) (klines : List Kline) (vol : Rat) : String :=
  let window := (klines.drop (klines.length - 20)).map Kline.close
  let mean := window.sum / 20
  let popStd := sqrtFn ((window.map (fun x => (x - mean)^2)).sum / 20)
  let threshold := 2 * (1 + vol)
  let upper := mean + threshold * popStd
  let lower := mean - threshold * popStd
  let price := lastClose klines
  if price > upper then "sell"
  else if price < lower then "buy"
  else "hold"

end SpecModel

/-! Concrete inputs used by counterexamples and witnesses. -/

/-- A flat kline at price `p`. -/
def flatKline (p : Rat) : Kline := ⟨p, p, p⟩

/-- Fifteen flat klines at price 1: enough closes for the RSI+ADX engine
(`base_period + 1 = 15`). -/
def fifteenFlat : List Kline := List.replicate 15 (flatKline 1)

/-- Four klines with nontrivial true ranges and directional movement, used
with period 2 to separate the two ADX recurrence readings. -/
def adxProbe : List Kline :=
  [⟨10, 9, 9⟩, ⟨12, 10, 11⟩, ⟨11, 8, 9⟩, ⟨13, 10, 12⟩]

/-- Twenty flat klines at price 3: enough closes for the mean-reversion
engine (`lookback_period = 20`). -/
def twentyFlat : List Kline := List.replicate 20 (flatKline 3)

/-! Helper lemmas. -/

theorem rsiSignalBody_ok (klines : List Kline) (vol : Option Rat) (s : String)
    (h : RSIStrategy.rsiSignalBody klines vol = Except.ok s) :
    s = "buy" ∨ s = "sell" ∨ s = "hold" := by
  simp only [RSIStrategy.rsiSignalBody] at h
  repeat' split at h
  all_goals (try (injection h with h))
  all_goals simp_all

theorem npDiff_cons (a b : Rat) (t : List Rat) :
    npDiff (a :: b :: t) = (b - a) :: npDiff (b :: t) := rfl

theorem npDiff_pos : ∀ (l : List Rat), List.Chain' (· < ·) l →
    ∀ d ∈ npDiff l, 0 < d
  | [], _, d, hd => by simp [npDiff] at hd
  | [_], _, d, hd => by simp [npDiff] at hd
  | a :: b :: t, h, d, hd => by
    rw [npDiff_cons] at hd
    rcases List.mem_cons.mp hd with rfl | hd'
    · have hab : a < b := (List.chain'_cons.mp h).1
      linarith
    · exact npDiff_pos (b :: t) (List.chain'_cons.mp h).2 d hd'

theorem npDiff_length (l : List Rat) : (npDiff l).length = l.length - 1 := by
  unfold npDiff
  rw [List.length_zipWith, List.length_tail]
  omega

theorem listMean_of_all_zero (l : List Rat) (h : ∀ x ∈ l, x = 0) :
    listMean l = 0 := by
  unfold listMean
  rw [List.sum_eq_zero h, zero_div]

theorem trDm_flat (p : Rat) : RSIStrategy.trDm (flatKline p) (flatKline p) = (0, 0, 0) := by
  simp [RSIStrategy.trDm, flatKline]

theorem trDmList_cons (a b : Kline) (t : List Kline) :
    RSIStrategy.trDmList (a :: b :: t) = RSIStrategy.trDm a b :: RSIStrategy.trDmList (b :: t) :=
  rfl

theorem trDmList_replicate (p : Rat) :
    ∀ n, RSIStrategy.trDmList (List.replicate (n+1) (flatKline p))
      = List.replicate n ((0:Rat), (0:Rat), (0:Rat))
  | 0 => rfl
  | n+1 => by
    have hrep : List.replicate (n+1+1) (flatKline p)
        = flatKline p :: flatKline p :: List.replicate n (flatKline p) := by
      simp [List.replicate_succ]
    rw [hrep, trDmList_cons, trDm_flat]
    have hrep2 : flatKline p :: List.replicate n (flatKline p)
        = List.replicate (n+1) (flatKline p) := by
      simp [List.replicate_succ]
    rw [hrep2, trDmList_replicate p n, List.replicate_succ]

theorem adxStep_flat_state (period : Nat) (hper : 1 ≤ period) (dxs : List Rat) :
    RSIStrategy.adxStep period ⟨1/10^10, 0, 0, dxs⟩ ((0:Rat), (0:Rat), (0:Rat))
      = ⟨1/10^10, 0, 0, dxs ++ [0]⟩ := by
  have hq : (0:Rat) < (period : Rat) := by
    exact_mod_cast Nat.lt_of_lt_of_le Nat.zero_lt_one hper
  have h1 : (1:Rat) ≤ (period : Rat) := by exact_mod_cast hper
  have hatr : max (((1/10^10 : Rat) * ((period : Rat) - 1) + 0) / (period : Rat)) (1/10^10)
      = 1/10^10 := by
    apply max_eq_right
    rw [div_le_iff₀ hq]
    nlinarith
  unfold RSIStrategy.adxStep
  rw [hatr]
  norm_num [npClip, max_def, min_def]

theorem adx_foldl_flat (period : Nat) (hper : 1 ≤ period) :
    ∀ (l : List (Rat × Rat × Rat)), (∀ y ∈ l, y = ((0:Rat), (0:Rat), (0:Rat))) →
    ∀ (dxs : List Rat),
      l.foldl (RSIStrategy.adxStep period) ⟨1/10^10, 0, 0, dxs⟩
        = ⟨1/10^10, 0, 0, dxs ++ List.replicate l.length 0⟩
  | [], _, dxs => by simp
  | y :: t, h, dxs => by
    have hy : y = ((0:Rat), (0:Rat), (0:Rat)) := h y (List.mem_cons_self _ _)
    rw [List.foldl_cons, hy, adxStep_flat_state period hper dxs,
      adx_foldl_flat period hper t (fun z hz => h z (List.mem_cons_of_mem _ hz)) (dxs ++ [0])]
    simp [List.replicate_succ]

/-! Claim theorems. -/

/-- C1 (amended part): the RSI+ADX variant of `generate_signal` is total —
for every kline-source outcome (including a raised exception) and every
volatility argument it returns one of the three signal strings and never
propagates an exception; every failure is recovered as a returned signal. -/
theorem rsi_generate_signal_never_raises (klinesRes : Except String (List Kline))
    (volatility : Option Rat) :
    RSIStrategy.generate_signal klinesRes volatility = "buy" ∨
    RSIStrategy.generate_signal klinesRes volatility = "sell" ∨
    RSIStrategy.generate_signal klinesRes volatility = "hold" := by
  unfold RSIStrategy.generate_signal
  cases klinesRes with
  | error e => simp
  | ok klines =>
    cases hb : RSIStrategy.rsiSignalBody klines volatility with
    | error e => simp [hb]
    | ok s => simpa [hb] using rsiSignalBody_ok klines volatility s hb

/-- C1 counterexample: the mean-reversion variant re-raises the exception of
a failed kline fetch, so the error propagates to the caller instead of
being recovered as a returned signal — refuting the claim that EACH variant
never lets an exception propagate. -/
theorem meanrev_generate_signal_propagates_error :
    MeanReversionStrategy.generate_signal (fun q => q)
      (Except.error "network error") (Except.ok 0)
      = Except.error "network error" := rfl

/-- C2 (amended): calling the RSI+ADX variant without a volatility value
always RETURNS the normal signal `"hold"`: the threshold computation raises
a `TypeError` internally (second conjunct, for windows long enough to reach
it), but the blanket exception handler catches it, so no explicit error
surfaces to the caller. -/
theorem rsi_missing_volatility_returns_hold :
    (∀ klinesRes : Except String (List Kline),
      RSIStrategy.generate_signal klinesRes none = "hold") ∧
    (∀ klines : List Kline, RSIStrategy.base_period + 1 ≤ klines.length →
      RSIStrategy.rsiSignalBody klines none =
        Except.error "TypeError: unsupported operand types for volatility None") := by
  have hbody : ∀ klines : List Kline, RSIStrategy.base_period + 1 ≤ klines.length →
      RSIStrategy.rsiSignalBody klines none =
        Except.error "TypeError: unsupported operand types for volatility None" := by
    intro klines hlen
    have hne : ¬ klines.isEmpty = true := by
      cases klines with
      | nil => simp at hlen
      | cons a t => simp
    simp only [RSIStrategy.rsiSignalBody, if_neg hne, List.length_map]
    rw [if_neg (by omega)]
  refine ⟨?_, hbody⟩
  intro klinesRes
  unfold RSIStrategy.generate_signal
  cases klinesRes with
  | error e => rfl
  | ok klines =>
    cases hb : RSIStrategy.rsiSignalBody klines none with
    | error e => simp [hb]
    | ok s =>
      have hs : s = "hold" := by
        simp only [RSIStrategy.rsiSignalBody] at hb
        repeat' split at hb
        all_goals (try (injection hb with hb))
        all_goals simp_all
      simp [hb, hs]

/-- C2 witness for the hypothesis-bearing conjunct, at fifteen flat klines. -/
theorem rsi_missing_volatility_returns_hold_witness :
    RSIStrategy.generate_signal (Except.ok fifteenFlat) none = "hold" ∧
    RSIStrategy.rsiSignalBody fifteenFlat none =
      Except.error "TypeError: unsupported operand types for volatility None" :=
  ⟨rsi_missing_volatility_returns_hold.1 (Except.ok fifteenFlat),
   rsi_missing_volatility_returns_hold.2 fifteenFlat (by decide)⟩

/-- C2 counterexample: with enough data and volatility absent, the engine
returns the normal signal `"hold"` to the caller — refuting the claim that
an explicit error surfaces rather than a returned signal. -/
theorem rsi_missing_volatility_counterexample :
    RSIStrategy.generate_signal (Except.ok fifteenFlat) none = "hold" := by decide

/-- C3 (amended): for every supplied volatility `v` the adaptive RSI period
equals `clamp(trunc(14 - 14*v), 5, 20)` where `trunc` is Python `int(...)`
truncation toward zero (not rounding to nearest), and it always lies in the
inclusive range `[5, 20]`. -/
theorem adaptive_period_truncates (v : Rat) :
    (RSIStrategy.adaptivePeriod v : Int)
        = max 5 (min 20 (pyTrunc ((14 : Rat) - 14 * v))) ∧
    5 ≤ RSIStrategy.adaptivePeriod v ∧ RSIStrategy.adaptivePeriod v ≤ 20 := by
  have h14 : (RSIStrategy.base_period : Rat) * (1 - v) = (14 : Rat) - 14 * v := by
    norm_num [RSIStrategy.base_period]
    ring
  unfold RSIStrategy.adaptivePeriod
  rw [h14]
  have h5 : (5 : Int) ≤ max 5 (min 20 (pyTrunc ((14 : Rat) - 14 * v))) := le_max_left _ _
  have h20 : max 5 (min 20 (pyTrunc ((14 : Rat) - 14 * v))) ≤ 20 :=
    max_le (by norm_num) (min_le_left _ _)
  refine ⟨Int.toNat_of_nonneg (by omega), by omega, by omega⟩

/-- C3 counterexample: at volatility `0.1` the code computes
`int(14 * 0.9) = 12` (truncation) while the claimed
`clamp(round(14 * 0.9), 5, 20)` is `13` — the adaptive period does not use
round-to-nearest. -/
theorem adaptive_period_round_counterexample :
    RSIStrategy.adaptivePeriod (1/10) = 12 ∧
    SpecModel.adaptivePeriodRound (1/10) = 13 ∧
    (RSIStrategy.adaptivePeriod (1/10) : Int) ≠ SpecModel.adaptivePeriodRound (1/10) := by
  have hfl : ⌊((63:Rat)/5)⌋ = 12 := by
    rw [Int.floor_eq_iff]
    norm_num
  have hfl2 : ⌊(63:Rat)/5 + 1/2⌋ = 13 := by
    rw [Int.floor_eq_iff]
    norm_num
  have h1 : RSIStrategy.adaptivePeriod (1/10) = 12 := by
    have hv : (RSIStrategy.base_period : Rat) * (1 - 1/10) = 63/5 := by
      norm_num [RSIStrategy.base_period]
    have hp : pyTrunc ((RSIStrategy.base_period : Rat) * (1 - 1/10)) = 12 := by
      unfold pyTrunc
      rw [hv, if_pos (by norm_num)]
      exact hfl
    unfold RSIStrategy.adaptivePeriod
    rw [hp]
    decide
  have h2 : SpecModel.adaptivePeriodRound (1/10) = 13 := by
    have hv : (14:Rat) * (1 - 1/10) + 1/2 = 63/5 + 1/2 := by norm_num
    have hr : SpecModel.roundNearest ((14:Rat) * (1 - 1/10)) = 13 := by
      unfold SpecModel.roundNearest
      rw [hv]
      exact hfl2
    unfold SpecModel.adaptivePeriodRound
    rw [hr]
    decide
  refine ⟨h1, h2, ?_⟩
  rw [h1, h2]
  decide

/-- C4 (amended): within each ADX recurrence iteration the
`(prev*(period-1)+new)/period` smoothing is applied first and only then the
division by the refreshed atr (times 100) and the clip to `[-1e5, 1e5]`;
but the value the smoothing is applied to — and the value carried between
iterations — is the previously atr-scaled, clipped directional index, not a
separate running smoothed-DM accumulator. -/
theorem adx_step_smooths_carried_scaled_di (period : Nat)
    (s : RSIStrategy.AdxState) (tr pdm mdm : Rat) :
    RSIStrategy.adxStep period s (tr, pdm, mdm) =
      { atr := max ((s.atr * ((period : Rat) - 1) + tr) / (period : Rat)) (1/10^10),
        plus_di := npClip (100 * ((s.plus_di * ((period : Rat) - 1) + pdm) / (period : Rat))
            / (max ((s.atr * ((period : Rat) - 1) + tr) / (period : Rat)) (1/10^10)))
            (-100000) 100000,
        minus_di := npClip (100 * ((s.minus_di * ((period : Rat) - 1) + mdm) / (period : Rat))
            / (max ((s.atr * ((period : Rat) - 1) + tr) / (period : Rat)) (1/10^10)))
            (-100000) 100000,
        dxs := s.dxs ++
          [if npClip (100 * ((s.plus_di * ((period : Rat) - 1) + pdm) / (period : Rat))
                / (max ((s.atr * ((period : Rat) - 1) + tr) / (period : Rat)) (1/10^10)))
                (-100000) 100000
              + npClip (100 * ((s.minus_di * ((period : Rat) - 1) + mdm) / (period : Rat))
                / (max ((s.atr * ((period : Rat) - 1) + tr) / (period : Rat)) (1/10^10)))
                (-100000) 100000 = 0
           then 0
           else 100 * |npClip (100 * ((s.plus_di * ((period : Rat) - 1) + pdm) / (period : Rat))
                / (max ((s.atr * ((period : Rat) - 1) + tr) / (period : Rat)) (1/10^10)))
                (-100000) 100000
              - npClip (100 * ((s.minus_di * ((period : Rat) - 1) + mdm) / (period : Rat))
                / (max ((s.atr * ((period : Rat) - 1) + tr) / (period : Rat)) (1/10^10)))
                (-100000) 100000|
            / (npClip (100 * ((s.plus_di * ((period : Rat) - 1) + pdm) / (period : Rat))
                / (max ((s.atr * ((period : Rat) - 1) + tr) / (period : Rat)) (1/10^10)))
                (-100000) 100000
              + npClip (100 * ((s.minus_di * ((period : Rat) - 1) + mdm) / (period : Rat))
                / (max ((s.atr * ((period : Rat) - 1) + tr) / (period : Rat)) (1/10^10)))
                (-100000) 100000)] } := rfl

/-- C4 counterexample: on a concrete four-kline series with period 2, the
source recurrence (which carries the scaled directional index) yields
`150/103`, while the claimed recurrence (which carries a running smoothed
DM accumulator) yields `25` — the two readings disagree, refuting the claim
that the carried value is a running smoothed DM quantity. -/
theorem adx_smoothed_dm_counterexample :
    RSIStrategy.calculate_adx adxProbe 2 = 150/103 ∧
    SpecModel.adxSmoothedDM adxProbe 2 = 25 ∧
    RSIStrategy.calculate_adx adxProbe 2 ≠ SpecModel.adxSmoothedDM adxProbe 2 := by
  have h1 : RSIStrategy.calculate_adx adxProbe 2 = 150/103 := by
    norm_num [RSIStrategy.calculate_adx, RSIStrategy.trDmList, RSIStrategy.trDm, adxProbe,
      RSIStrategy.adxStep, listMean, npClip, lastSlice, max_def, min_def, abs]
  have h2 : SpecModel.adxSmoothedDM adxProbe 2 = 25 := by
    norm_num [SpecModel.adxSmoothedDM, RSIStrategy.trDmList, RSIStrategy.trDm, adxProbe,
      SpecModel.adxDmStep, listMean, npClip, lastSlice, max_def, min_def, abs]
  refine ⟨h1, h2, ?_⟩
  rw [h1, h2]
  norm_num

/-- C7: for every volatility `v ≥ 0` the derived decision bounds stay in
their inclusive clamp ranges — `overboughtThreshold ∈ [50, 80]`,
`oversoldThreshold ∈ [20, 50]`, `adxThreshold ∈ [10, 30]`; in particular
increasing `v` never pushes the overbought bound above 80 nor the oversold
bound below 20. -/
theorem rsi_thresholds_clamped (v : Rat) (_hv : 0 ≤ v) :
    (50 ≤ RSIStrategy.overboughtThreshold v ∧ RSIStrategy.overboughtThreshold v ≤ 80) ∧
    (20 ≤ RSIStrategy.oversoldThreshold v ∧ RSIStrategy.oversoldThreshold v ≤ 50) ∧
    (10 ≤ RSIStrategy.adxThreshold v ∧ RSIStrategy.adxThreshold v ≤ 30) := by
  unfold RSIStrategy.overboughtThreshold RSIStrategy.oversoldThreshold RSIStrategy.adxThreshold
  exact ⟨⟨le_max_left _ _, max_le (by norm_num) (min_le_left _ _)⟩,
         ⟨le_max_left _ _, max_le (by norm_num) (min_le_left _ _)⟩,
         ⟨le_max_left _ _, max_le (by norm_num) (min_le_left _ _)⟩⟩

/-- C5: with at least `base_period + 1` closes and a supplied volatility,
the RSI+ADX engine returns exactly the claimed decision — `sell` when
`rsi > overboughtThreshold` and `adx > adxThreshold`, `buy` when
`rsi < oversoldThreshold` and `adx > adxThreshold`, else `hold`, with a
non-hold decision downgraded to `hold` exactly when the order quantity is
below the minimum order size `0.001`. -/
theorem rsi_signal_decision_spec (klines : List Kline) (v : Rat)
    (h : RSIStrategy.base_period + 1 ≤ klines.length) :
    RSIStrategy.generate_signal (Except.ok klines) (some v)
      = SpecModel.rsiDecision klines v := by
  have hne : ¬ klines.isEmpty = true := by
    cases klines with
    | nil => simp at h
    | cons a t => simp
  unfold RSIStrategy.generate_signal
  simp only [RSIStrategy.rsiSignalBody, if_neg hne, List.length_map]
  rw [if_neg (by omega)]
  simp only [SpecModel.rsiDecision]
  split_ifs <;> simp_all

/-- C5 witness at fifteen flat klines and volatility 0. -/
theorem rsi_signal_decision_spec_witness :
    RSIStrategy.base_period + 1 ≤ fifteenFlat.length ∧
    RSIStrategy.generate_signal (Except.ok fifteenFlat) (some 0)
      = SpecModel.rsiDecision fifteenFlat 0 :=
  ⟨by decide, rsi_signal_decision_spec fifteenFlat 0 (by decide)⟩

/-- C6: whenever at least 20 closes are available, the mean-reversion engine
computes the mean and the population standard deviation (divide by N = 20)
over the last 20 closes, the unclamped threshold `2 * (1 + volatility)`,
the bounds `mean ± threshold * std`, and returns `sell`/`buy`/`hold` by
comparing the latest close against them — for any square-root function. -/
theorem meanrev_signal_decision_spec (sqrtFn : Rat → Rat) (klines : List Kline) (vol : Rat)
    (h : MeanReversionStrategy.lookback_period ≤ klines.length) :
    MeanReversionStrategy.generate_signal sqrtFn (Except.ok klines) (Except.ok vol)
      = Except.ok (SpecModel.meanRevDecision sqrtFn klines vol) := by
  have h20 : 20 ≤ klines.length := h
  have hwin : ((klines.drop (klines.length - 20)).map Kline.close).length = (20 : Nat) := by
    rw [List.length_map, List.length_drop]
    omega
  simp only [MeanReversionStrategy.generate_signal, SpecModel.meanRevDecision,
    MeanReversionStrategy.lookback_period]
  rw [if_neg (by omega)]
  simp only [hwin, Nat.cast_ofNat, apply_ite Except.ok]

/-- C6 witness at twenty flat klines, the identity as square-root stand-in,
and volatility 0. -/
theorem meanrev_signal_decision_spec_witness :
    MeanReversionStrategy.lookback_period ≤ twentyFlat.length ∧
    MeanReversionStrategy.generate_signal (fun q => q) (Except.ok twentyFlat) (Except.ok 0)
      = Except.ok (SpecModel.meanRevDecision (fun q => q) twentyFlat 0) :=
  ⟨by decide, meanrev_signal_decision_spec (fun q => q) twentyFlat 0 (by decide)⟩

/-- C10: the quantity tested by the minimum-order veto is `0.1 / lastClose`,
and for positive closes it is below `0.001` precisely when the latest close
exceeds 100; consequently every signal request on a window whose latest
close exceeds 100 is returned as `hold`. -/
theorem min_order_veto_iff_close_above_100 :
    (∀ c : Rat, 0 < c →
      (RSIStrategy.orderQuantity c < RSIStrategy.min_order_size ↔ 100 < c)) ∧
    (∀ (klines : List Kline) (vol : Option Rat), 100 < lastClose klines →
      RSIStrategy.generate_signal (Except.ok klines) vol = "hold") := by
  have hiff : ∀ c : Rat, 0 < c →
      (RSIStrategy.orderQuantity c < RSIStrategy.min_order_size ↔ 100 < c) := by
    intro c hc
    unfold RSIStrategy.orderQuantity RSIStrategy.min_order_size
    rw [div_lt_iff₀ hc]
    constructor <;> intro h <;> linarith
  refine ⟨hiff, ?_⟩
  intro klines vol hclose
  have hq : RSIStrategy.orderQuantity (lastClose klines) < RSIStrategy.min_order_size :=
    (hiff (lastClose klines) (by linarith)).mpr hclose
  unfold RSIStrategy.generate_signal
  cases hb : RSIStrategy.rsiSignalBody klines vol with
  | error e => simp [hb]
  | ok s =>
    have hs : s = "hold" := by
      simp only [RSIStrategy.rsiSignalBody] at hb
      repeat' split at hb
      all_goals (try (injection hb with hb))
      all_goals simp_all
    simp [hb, hs]

/-- C10 witness: the veto inequality at close 200, and the returned signal
on a single kline closing at 101. -/
theorem min_order_veto_iff_close_above_100_witness :
    (RSIStrategy.orderQuantity 200 < RSIStrategy.min_order_size ↔ 100 < (200 : Rat)) ∧
    RSIStrategy.generate_signal (Except.ok [flatKline 101]) (some 0) = "hold" :=
  ⟨min_order_veto_iff_close_above_100.1 200 (by decide),
   min_order_veto_iff_close_above_100.2 [flatKline 101] (some 0) (by decide)⟩

/-- C7 witness at volatility 3. -/
theorem rsi_thresholds_clamped_witness :
    (50 ≤ RSIStrategy.overboughtThreshold 3 ∧ RSIStrategy.overboughtThreshold 3 ≤ 80) ∧
    (20 ≤ RSIStrategy.oversoldThreshold 3 ∧ RSIStrategy.oversoldThreshold 3 ≤ 50) ∧
    (10 ≤ RSIStrategy.adxThreshold 3 ∧ RSIStrategy.adxThreshold 3 ≤ 30) :=
  rsi_thresholds_clamped 3 (by norm_num)

/-- C8: `calculate_adx` returns 0 for every kline series shorter than
`period + 1`, and for a constant-price series of any length (every high,
low and close equal) it returns exactly 0: the all-zero true ranges and
directional movements are absorbed by the `1e-10` atr floor and the
zero-denominator `dx` branch, so no degenerate value is produced. -/
theorem adx_short_or_constant_zero :
    (∀ (klines : List Kline) (period : Nat), klines.length < period + 1 →
      RSIStrategy.calculate_adx klines period = 0) ∧
    (∀ (n : Nat) (p : Rat) (period : Nat), 1 ≤ period →
      RSIStrategy.calculate_adx (List.replicate n (flatKline p)) period = 0) := by
  have hshort : ∀ (klines : List Kline) (period : Nat), klines.length < period + 1 →
      RSIStrategy.calculate_adx klines period = 0 := by
    intro klines period h
    unfold RSIStrategy.calculate_adx
    rw [if_pos h]
  refine ⟨hshort, ?_⟩
  intro n p period hper
  by_cases hn : (List.replicate n (flatKline p)).length < period + 1
  · exact hshort _ _ hn
  · rw [List.length_replicate] at hn
    push_neg at hn
    obtain ⟨m, rfl⟩ : ∃ m, n = m + 1 := ⟨n - 1, by omega⟩
    unfold RSIStrategy.calculate_adx
    rw [if_neg (by rw [List.length_replicate]; omega)]
    simp only [trDmList_replicate, List.map_replicate]
    rw [if_neg (by rw [List.length_replicate]; omega)]
    have hmean : ∀ k j, listMean (List.take k (List.replicate j (0:Rat))) = 0 := by
      intro k j
      exact listMean_of_all_zero _
        (fun x hx => List.eq_of_mem_replicate (List.take_subset _ _ hx))
    simp only [hmean]
    have hmax : max (0:Rat) (1/10^10) = 1/10^10 := max_eq_right (by norm_num)
    have hclip : npClip (100 * 0 / (1/10^10 : Rat)) (-100000) 100000 = 0 := by
      norm_num [npClip, max_def, min_def]
    rw [hmax]
    simp only [hclip]
    rw [if_pos (by norm_num)]
    rw [adx_foldl_flat period hper _
      (fun y hy => List.eq_of_mem_replicate (List.drop_subset _ _ hy)) [0]]
    exact listMean_of_all_zero _ (fun x hx => by
      have hmem := List.drop_subset _ _ hx
      rcases List.mem_append.mp hmem with hl | hr
      · simpa using hl
      · exact List.eq_of_mem_replicate hr)

/-- C8 witness: a two-kline series with period 2 (too short), and a
constant-price series of length 20 at price 5 with period 14. -/
theorem adx_short_or_constant_zero_witness :
    RSIStrategy.calculate_adx [flatKline 1, flatKline 2] 2 = 0 ∧
    RSIStrategy.calculate_adx (List.replicate 20 (flatKline 5)) 14 = 0 :=
  ⟨adx_short_or_constant_zero.1 [flatKline 1, flatKline 2] 2 (by decide),
   adx_short_or_constant_zero.2 20 5 14 (by decide)⟩

/-- C9: for every strictly increasing close series of length greater than
`period` (with `period ≥ 1`), `calculate_rsi` returns exactly 100: all
per-step losses are zero, so the averaged loss is zero while the averaged
gain is positive, and the zero-loss branch yields 100. -/
theorem rsi_strictly_increasing_100 (closes : List Rat) (period : Nat)
    (hper : 1 ≤ period) (hlen : period < closes.length)
    (hmono : List.Sorted (· < ·) closes) :
    RSIStrategy.calculate_rsi closes period = 100 := by
  have hchain : List.Chain' (· < ·) closes := List.Pairwise.chain' hmono
  have hpos : ∀ d ∈ npDiff closes, 0 < d := npDiff_pos closes hchain
  have hdl : (npDiff closes).length = closes.length - 1 := npDiff_length closes
  have hloss : listMean (List.take period (List.map lossPart (npDiff closes))) = 0 := by
    apply listMean_of_all_zero
    intro x hx
    obtain ⟨d, hd, rfl⟩ := List.mem_map.mp (List.take_subset _ _ hx)
    unfold lossPart
    rw [if_neg (not_lt.mpr (le_of_lt (hpos d hd)))]
  have hgain : 0 < listMean (List.take period (List.map gainPart (npDiff closes))) := by
    unfold listMean
    have hlentake : (List.take period (List.map gainPart (npDiff closes))).length = period := by
      rw [List.length_take, List.length_map, hdl]
      omega
    apply div_pos
    · apply List.sum_pos
      · intro x hx
        obtain ⟨d, hd, rfl⟩ := List.mem_map.mp (List.take_subset _ _ hx)
        unfold gainPart
        rw [if_pos (hpos d hd)]
        exact hpos d hd
      · intro hnil
        rw [hnil] at hlentake
        simp at hlentake
        omega
    · rw [hlentake]
      exact_mod_cast Nat.lt_of_lt_of_le Nat.zero_lt_one hper
  simp only [RSIStrategy.calculate_rsi]
  rw [if_neg (by omega), if_pos hloss, if_pos hgain]

/-- C9 witness at the strictly increasing closes `[1, 2, 3]` with
period 1. -/
theorem rsi_strictly_increasing_100_witness :
    1 ≤ 1 ∧ 1 < ([(1:Rat), 2, 3]).length ∧ List.Sorted (· < ·) [(1:Rat), 2, 3] ∧
    RSIStrategy.calculate_rsi [(1:Rat), 2, 3] 1 = 100 :=
  ⟨by decide, by decide, by decide,
   rsi_strictly_increasing_100 [(1:Rat), 2, 3] 1 (by decide) (by decide) (by decide)⟩
